import Mathlib

/-!
# Verification of the rendering core against its specification

This file gives a shallow embedding of the parts of the
`ash-ext-shader-objects` rendering core that the specification's testable
properties talk about, and proves (or refutes) each property against the
embedded code.

Embedded components:
* `Buffer` / `Image` and their `destroy` / `copy_from_slice` / view logic
  (src/buffer.rs);
* the shader-reflection descriptor synthesizer
  `create_descriptor_set_layouts` / `create_descriptor_sets`
  (src/render/shaders.rs), together with the sampler cache of the device
  context (src/ctx.rs);
* the global bindless descriptor set's `get_texture_index`
  (src/render/global_descriptors.rs), with the `BTreeMap` of resident
  textures embedded as a key-sorted association list;
* the per-frame trace of `PresentNode::run` (src/render/nodes/mod.rs),
  with the nondeterministic rayon scheduling of spawned draw tasks made
  explicit as a schedule function from draw items to worker threads.

GPU handles are embedded as natural numbers; device calls are recorded as
events so that claims about which calls happen (and in which order) become
statements about event lists.  Rust panics are embedded as `Except.error`
(or as a `none` result where the surrounding code only observes
success/failure).
-/

set_option autoImplicit false

namespace RenderCore

/-! ## Resource layer (src/buffer.rs) -/

/-- A `gpu_allocator` allocation as the resource layer sees it: an optional
persistent host-mapped pointer (present iff the memory class is
host-visible) and the allocation offset. -/
structure Allocation where
  mapped_ptr : Option Nat
  offset : Nat
  deriving DecidableEq, Repr

/-- `Buffer` from src/buffer.rs.  The allocation is an `Option` taken out by
`destroy`, exactly as in the source. -/
structure Buffer where
  buffer : Nat
  allocation : Option Allocation
  size : Nat
  device_addr : Nat
  has_been_written_to : Bool
  offset : Nat
  deriving DecidableEq, Repr

/-- `Image` from src/buffer.rs. -/
structure Image where
  image : Nat
  allocation : Option Allocation
  view : Option Nat
  format : Nat
  extent : Nat × Nat × Nat
  offset : Nat
  deriving DecidableEq, Repr

/-- Device calls performed by `Buffer::destroy` / `Image::destroy`,
recorded as events. -/
inductive DestroyAction where
  | freeAlloc
  | destroyBuffer (h : Nat)
  | destroyImageView (h : Nat)
  | destroyImage (h : Nat)
  deriving DecidableEq, Repr

/-- `Buffer::destroy`: `allocator.free(self.allocation.take().unwrap())`
then `device.destroy_buffer`.  The returned list holds the actions
performed before returning (or before panicking); `none` in the second
component embeds the `unwrap` panic on an already-taken allocation, which
happens before any action is performed. -/
def Buffer.destroy (b : Buffer) : List DestroyAction × Option Buffer :=
  match b.allocation with
  | some _ =>
      ([DestroyAction.freeAlloc, DestroyAction.destroyBuffer b.buffer],
        some { b with allocation := none })
  | none => ([], none)

/-- `Image::destroy`: first `self.view.take()` is destroyed if present, then
the allocation is taken (`unwrap` panics when it is already gone) and
freed, then the raw image handle is destroyed. -/
def Image.destroy (img : Image) : List DestroyAction × Option Image :=
  let step :=
    match img.view with
    | some v => ([DestroyAction.destroyImageView v], { img with view := none })
    | none => (([] : List DestroyAction), img)
  match step.2.allocation with
  | some _ =>
      (step.1 ++ [DestroyAction.freeAlloc, DestroyAction.destroyImage step.2.image],
        some { step.2 with allocation := none })
  | none => (step.1, none)

/-- The raw-pointer write performed by `Buffer::copy_from_slice`, recorded
as an event: destination address and the bytes written.  Nothing bounds the
write against the buffer size. -/
structure MemWrite where
  dst_ptr : Nat
  bytes : List Nat
  deriving DecidableEq, Repr

/-- `Buffer::copy_from_slice`: panics if the allocation was taken
(`"Tried writing to buffer but buffer not allocated"`) or if the allocation
has no mapped pointer (`mapped_ptr().unwrap()`); otherwise writes
`slice` at `mapped_ptr + offset` and sets `has_been_written_to`.  The size
assertion in the source is commented out, so no comparison against
`b.size` appears here. -/
def Buffer.copy_from_slice (b : Buffer) (slice : List Nat) (offset : Nat) :
    Except String (Buffer × MemWrite) :=
  match b.allocation with
  | none => .error "Tried writing to buffer but buffer not allocated"
  | some a =>
      match a.mapped_ptr with
      | none => .error "called Option::unwrap on a None value"
      | some p =>
          .ok ({ b with has_been_written_to := true },
               { dst_ptr := p + offset, bytes := slice })

/-! ## Present node run trace (src/render/nodes/mod.rs) -/

/-- Events of one `PresentNode::run` invocation. -/
inductive RunEvent where
  | acquireNextImage
  | beginPrimary
  | beginSecondary (tid : Nat)
  | recordDraw (tid : Nat) (item : Nat)
  | endSecondary (tid : Nat)
  | executeCommands (tids : List Nat)
  | endPrimary
  | submitPrimary
  | queuePresent
  deriving DecidableEq, Repr

/-- The thread ids pushed onto the completion queue: item `i` of the draw
list is recorded by thread `σ i`, which then pushes its own id. -/
def touchedThreads (n : Nat) (σ : Nat → Nat) : List Nat :=
  (List.range n).map σ

/-- Trace of `PresentNode::run` for a draw list of `n` items.  `pool` lists
the worker-thread ids of the persistent secondary-command-buffer map
(`threaded_command_buffers`); `σ i` is the rayon worker that ends up
running the task spawned for item `i` (the code places no constraint on
this assignment beyond membership in the pool — `rayon::current_thread_index`).

Mirrors the source: an empty draw list returns `Ok(())` before anything
else happens; otherwise the swapchain image is acquired, the primary
buffer begins, every secondary buffer in the pool is begun, each item is
recorded on its thread's buffer, every secondary buffer is ended, one
`cmd_execute_commands` lists the buffers whose thread id was drained from
the completion queue, the primary ends, is submitted and the image is
presented.  A schedule naming a thread outside the pool would hit
`command_buffers.get(&thread_index).unwrap()` and panic. -/
def PresentNode.run (n : Nat) (pool : List Nat) (σ : Nat → Nat) :
    Except String (List RunEvent) :=
  if n = 0 then .ok []
  else if (List.range n).all (fun i => pool.contains (σ i)) then
    .ok ([RunEvent.acquireNextImage, RunEvent.beginPrimary]
      ++ pool.map RunEvent.beginSecondary
      ++ (List.range n).map (fun i => RunEvent.recordDraw (σ i) i)
      ++ pool.map RunEvent.endSecondary
      ++ [RunEvent.executeCommands
            (pool.filter (fun t => (touchedThreads n σ).contains t)),
          RunEvent.endPrimary, RunEvent.submitPrimary, RunEvent.queuePresent])
  else .error "command buffer for thread not found"

/-- The argument lists of the `executeCommands` events of a trace. -/
def executedLists (tr : List RunEvent) : List (List Nat) :=
  tr.filterMap (fun e =>
    match e with
    | RunEvent.executeCommands ts => some ts
    | _ => none)

/-- `executedLists` read off a whole run result (empty on error). -/
def executedOf (r : Except String (List RunEvent)) : List (List Nat) :=
  match r with
  | .ok tr => executedLists tr
  | .error _ => []

/-! ## Rust string helpers

The descriptor synthesizer inspects binding names with `str::starts_with`,
`str::ends_with`, `str::strip_prefix` and byte slicing.  The markers are
ASCII, so `&str` is embedded as `String` with character-level prefix and
suffix tests. -/

/-- `str::starts_with`. -/
def rsStartsWith (s p : String) : Bool := p.data.isPrefixOf s.data

/-- `str::ends_with`. -/
def rsEndsWith (s p : String) : Bool := p.data.isSuffixOf s.data

/-! ## Sampler cache (src/ctx.rs) -/

inductive Filter where
  | NEAREST | LINEAR
  deriving DecidableEq, Repr

inductive SamplerMipmapMode where
  | NEAREST | LINEAR
  deriving DecidableEq, Repr

inductive SamplerAddressMode where
  | REPEAT | MIRRORED_REPEAT | CLAMP_TO_EDGE | CLAMP_TO_BORDER
  deriving DecidableEq, Repr

/-- `SamplerDesc` from src/ctx.rs. -/
structure SamplerDesc where
  texel_filter : Filter
  mipmap_mode : SamplerMipmapMode
  address_modes : SamplerAddressMode
  deriving DecidableEq, Repr

/-- `ExampleBase::create_samplers`: the cache keys built once at
device-context construction — every combination of the two filters, the
two mipmap modes and the two listed address modes (`REPEAT` and
`CLAMP_TO_EDGE`).  A sampler handle is uniquely determined by its
`SamplerDesc`, so the cache is embedded by its key set. -/
def create_samplers : List SamplerDesc :=
  ([Filter.NEAREST, Filter.LINEAR].map fun texel_filter =>
    ([SamplerMipmapMode.NEAREST, SamplerMipmapMode.LINEAR].map fun mipmap_mode =>
      ([SamplerAddressMode.REPEAT, SamplerAddressMode.CLAMP_TO_EDGE].map
        fun address_modes =>
          SamplerDesc.mk texel_filter mipmap_mode address_modes)).flatten).flatten

/-- `ExampleBase::get_sampler`: cache lookup, panicking
(`"Sampler not found"`) on a miss. -/
def get_sampler (cache : List SamplerDesc) (desc : SamplerDesc) :
    Except String SamplerDesc :=
  if cache.contains desc then .ok desc else .error "Sampler not found"

/-! ## Shader reflection and descriptor synthesizer (src/render/shaders.rs) -/

/-- `rspirv_reflect::DescriptorType` (the reflected resource kind). -/
inductive ReflDescriptorType where
  | UNIFORM_BUFFER | UNIFORM_BUFFER_DYNAMIC | UNIFORM_TEXEL_BUFFER
  | STORAGE_TEXEL_BUFFER | STORAGE_IMAGE | STORAGE_BUFFER
  | STORAGE_BUFFER_DYNAMIC | COMBINED_IMAGE_SAMPLER | SAMPLED_IMAGE
  | SAMPLER | INPUT_ATTACHMENT | ACCELERATION_STRUCTURE_KHR
  deriving DecidableEq, Repr

/-- `vk::DescriptorType` (the synthesized binding type). -/
inductive VkDescriptorType where
  | UNIFORM_BUFFER | UNIFORM_BUFFER_DYNAMIC | UNIFORM_TEXEL_BUFFER
  | STORAGE_IMAGE | STORAGE_BUFFER | STORAGE_BUFFER_DYNAMIC
  | COMBINED_IMAGE_SAMPLER | SAMPLED_IMAGE | SAMPLER
  | ACCELERATION_STRUCTURE_KHR
  deriving DecidableEq, Repr

/-- `rspirv_reflect::BindingCount`. -/
inductive BindingCount where
  | One
  | StaticSized (n : Nat)
  | Unbounded
  deriving DecidableEq, Repr

/-- `rspirv_reflect::DescriptorInfo`: reflected kind, cardinality and
declared name of one binding. -/
structure DescriptorInfo where
  ty : ReflDescriptorType
  binding_count : BindingCount
  name : String
  deriving DecidableEq, Repr

/-- `vk::DescriptorBindingFlags` as a record of the individual bits. -/
structure DescriptorBindingFlags where
  partially_bound : Bool := false
  update_after_bind : Bool := false
  update_unused_while_pending : Bool := false
  variable_descriptor_count : Bool := false
  deriving DecidableEq, Repr

def DescriptorBindingFlags.PARTIALLY_BOUND : DescriptorBindingFlags :=
  { partially_bound := true }

/-- `vk::DescriptorSetLayoutBinding` as synthesized (stage flags are the
constant `ShaderStageFlags::ALL` on every binding and are elided). -/
structure DescriptorSetLayoutBinding where
  binding : Nat
  descriptor_count : Nat
  descriptor_type : VkDescriptorType
  immutable_samplers : List SamplerDesc := []
  deriving DecidableEq, Repr

/-- The sampler-name convention decoded in the `SAMPLER` arm of
`create_descriptor_set_layouts`: the `"sampler_"` prefix
(`strip_prefix`), a one-character filter token, a one-character mipmap
token, and the remaining characters as the address-mode token.  Every
panic of the source's decoder (missing prefix, short name, unknown token)
is `none` here. -/
def parse_sampler_name (name : String) : Option SamplerDesc :=
  match name.data with
  | 's' :: 'a' :: 'm' :: 'p' :: 'l' :: 'e' :: 'r' :: '_' :: spec =>
    match spec with
    | f :: m :: rest =>
      let texel_filter? : Option Filter :=
        if f = 'n' then some Filter.NEAREST
        else if f = 'l' then some Filter.LINEAR
        else none
      let mipmap_mode? : Option SamplerMipmapMode :=
        if m = 'n' then some SamplerMipmapMode.NEAREST
        else if m = 'l' then some SamplerMipmapMode.LINEAR
        else none
      let address_modes? : Option SamplerAddressMode :=
        if rest = ['r'] then some SamplerAddressMode.REPEAT
        else if rest = ['m', 'r'] then some SamplerAddressMode.MIRRORED_REPEAT
        else if rest = ['c'] then some SamplerAddressMode.CLAMP_TO_EDGE
        else if rest = ['c', 'b'] then some SamplerAddressMode.CLAMP_TO_BORDER
        else none
      match texel_filter?, mipmap_mode?, address_modes? with
      | some texel_filter, some mipmap_mode, some address_modes =>
          some { texel_filter, mipmap_mode, address_modes }
      | _, _, _ => none
    | _ => none
  | _ => none

/-- The descriptor count computed at the top of the per-binding loop:
`u_`-prefixed names and unbounded cardinalities get
`max_descriptor_count`; a static size goes through
`usize::try_into::<u32>().unwrap()`. -/
def binding_descriptor_count (max_descriptor_count : Nat)
    (binding : DescriptorInfo) : Except String Nat :=
  if rsStartsWith binding.name "u_" then Except.ok max_descriptor_count
  else
    match binding.binding_count with
    | BindingCount.One => Except.ok 1
    | BindingCount.StaticSized n =>
        if n < 2 ^ 32 then Except.ok n
        else Except.error "out of range integral type conversion attempted"
    | BindingCount.Unbounded => Except.ok max_descriptor_count

/-- The inner `descriptor_type` match of the non-sampler arm: reflected
kinds map to their Vulkan equivalent, except a storage buffer whose name
ends in `"_dyn"`, which maps to the dynamic variant; anything else is
`unimplemented!`. -/
def map_descriptor_type (binding : DescriptorInfo) :
    Except String VkDescriptorType :=
  match binding.ty with
  | .UNIFORM_BUFFER => Except.ok VkDescriptorType.UNIFORM_BUFFER
  | .UNIFORM_BUFFER_DYNAMIC => Except.ok VkDescriptorType.UNIFORM_BUFFER_DYNAMIC
  | .UNIFORM_TEXEL_BUFFER => Except.ok VkDescriptorType.UNIFORM_TEXEL_BUFFER
  | .STORAGE_IMAGE => Except.ok VkDescriptorType.STORAGE_IMAGE
  | .STORAGE_BUFFER =>
      if rsEndsWith binding.name "_dyn" then
        Except.ok VkDescriptorType.STORAGE_BUFFER_DYNAMIC
      else Except.ok VkDescriptorType.STORAGE_BUFFER
  | .STORAGE_BUFFER_DYNAMIC => Except.ok VkDescriptorType.STORAGE_BUFFER_DYNAMIC
  | .COMBINED_IMAGE_SAMPLER => Except.ok VkDescriptorType.COMBINED_IMAGE_SAMPLER
  | .SAMPLED_IMAGE => Except.ok VkDescriptorType.SAMPLED_IMAGE
  | _ => Except.error "unimplemented"

/-- The body of the per-binding loop of `create_descriptor_set_layouts`:
computes the descriptor count, then dispatches on the reflected kind;
every non-sampler handled kind pushes a plain binding, `SAMPLER` decodes
the name and takes an immutable sampler from the cache, and unhandled
kinds hit `unimplemented!`. -/
def process_binding (max_descriptor_count : Nat) (cache : List SamplerDesc)
    (binding_index : Nat) (binding : DescriptorInfo) :
    Except String DescriptorSetLayoutBinding :=
  match binding_descriptor_count max_descriptor_count binding with
  | .error e => .error e
  | .ok descriptor_count =>
    match binding.ty with
    | .UNIFORM_BUFFER | .UNIFORM_TEXEL_BUFFER | .STORAGE_IMAGE
    | .STORAGE_BUFFER | .STORAGE_BUFFER_DYNAMIC | .COMBINED_IMAGE_SAMPLER
    | .SAMPLED_IMAGE =>
        match map_descriptor_type binding with
        | .error e => .error e
        | .ok descriptor_type =>
            .ok { binding := binding_index, descriptor_count, descriptor_type }
    | .SAMPLER =>
        match parse_sampler_name binding.name with
        | some desc =>
            match get_sampler cache desc with
            | .error e => .error e
            | .ok s =>
                .ok { binding := binding_index, descriptor_count := 1,
                      descriptor_type := VkDescriptorType.SAMPLER,
                      immutable_samplers := [s] }
        | none => .error binding.name
    | .ACCELERATION_STRUCTURE_KHR =>
        .ok { binding := binding_index, descriptor_count,
              descriptor_type := VkDescriptorType.ACCELERATION_STRUCTURE_KHR }
    | _ => .error "unimplemented"

/-- Map over `Except`, mirroring the source's push-into-`Vec` loops (the
first panic aborts the whole synthesis). -/
def exceptMapM {α β : Type} (f : α → Except String β) :
    List α → Except String (List β)
  | [] => .ok []
  | x :: xs =>
    match f x with
    | .error e => .error e
    | .ok y =>
      match exceptMapM f xs with
      | .error e => .error e
      | .ok ys => .ok (y :: ys)

/-- One synthesized descriptor set layout: the create flags (only the
update-after-bind-pool bit could ever be set — the code that would set it
is commented out, so it is constantly `false`), the bindings, and the
parallel per-binding flag array. -/
structure SetLayoutResult where
  update_after_bind_pool : Bool
  bindings : List DescriptorSetLayoutBinding
  binding_flags : List DescriptorBindingFlags
  deriving DecidableEq, Repr

/-- The empty placeholder layout produced for a set index with no
reflected bindings. -/
def emptySetLayout : SetLayoutResult :=
  { update_after_bind_pool := false, bindings := [], binding_flags := [] }

/-- The `if let Some(set)` branch of the per-set loop: every reflected
binding is processed in ascending binding-index order, the flag array is
`vec![PARTIALLY_BOUND; set.len()]`, and the create flags stay empty. -/
def process_set (max_descriptor_count : Nat) (cache : List SamplerDesc)
    (set : List (Nat × DescriptorInfo)) : Except String SetLayoutResult :=
  match exceptMapM
      (fun p => process_binding max_descriptor_count cache p.1 p.2) set with
  | .error e => .error e
  | .ok bindings =>
      .ok { update_after_bind_pool := false, bindings,
            binding_flags :=
              List.replicate set.length DescriptorBindingFlags.PARTIALLY_BOUND }

/-- The reflected `BTreeMap<u32, BTreeMap<u32, DescriptorInfo>>`, embedded
as a key-sorted association list of key-sorted association lists. -/
abbrev StageDescriptorSetLayouts := List (Nat × List (Nat × DescriptorInfo))

/-- `set_count` of `create_descriptor_set_layouts`:
`keys().map(|s| s + 1).max().unwrap_or(0)`. -/
def set_count (sets : StageDescriptorSetLayouts) : Nat :=
  (sets.map (fun p => p.1 + 1)).foldr Nat.max 0

/-- Result of `create_descriptor_set_layouts`: the layouts in set-index
order and the parallel `HashMap<u32, vk::DescriptorType>` list (embedded as
association lists). -/
structure LayoutsResult where
  set_layouts : List SetLayoutResult
  set_layout_info : List (List (Nat × VkDescriptorType))
  deriving DecidableEq, Repr

/-- One iteration of the per-set-index loop: a populated set index gets
its processed layout and binding→type map, an unpopulated one the empty
placeholder. -/
def process_set_index (max_descriptor_count : Nat) (cache : List SamplerDesc)
    (sets : StageDescriptorSetLayouts) (set_index : Nat) :
    Except String (SetLayoutResult × List (Nat × VkDescriptorType)) :=
  match sets.lookup set_index with
  | some set =>
      match process_set max_descriptor_count cache set with
      | .error e => .error e
      | .ok sl =>
          .ok (sl, sl.bindings.map (fun b => (b.binding, b.descriptor_type)))
  | none => .ok (emptySetLayout, ([] : List (Nat × VkDescriptorType)))

/-- `Shader::create_descriptor_set_layouts`: one layout per set index in
`0..set_count`, an empty placeholder for indices with no reflected
bindings, and for populated indices the processed bindings together with
their binding→type map. -/
def create_descriptor_set_layouts (sets : StageDescriptorSetLayouts)
    (max_descriptor_count : Nat) (cache : List SamplerDesc) :
    Except String LayoutsResult :=
  match exceptMapM (process_set_index max_descriptor_count cache sets)
      (List.range (set_count sets)) with
  | .error e => .error e
  | .ok pairs =>
      .ok { set_layouts := pairs.map Prod.fst,
            set_layout_info := pairs.map Prod.snd }

/-! ## Descriptor pool sizing (`Shader::create_descriptor_sets`) -/

/-- One step of the pool-size accumulation: if an entry for the type is
already present its count is incremented by one, otherwise a new entry is
pushed with `descriptor_count = max_descriptor_count`. -/
def add_pool_size (max_descriptor_count : Nat)
    (acc : List (VkDescriptorType × Nat)) (ty : VkDescriptorType) :
    List (VkDescriptorType × Nat) :=
  match acc with
  | [] => [(ty, max_descriptor_count)]
  | (ty', c) :: rest =>
      if ty' = ty then (ty', c + 1) :: rest
      else (ty', c) :: add_pool_size max_descriptor_count rest ty

/-- The `descriptor_pool_sizes` vector built by `create_descriptor_sets`
from the flattened type values of all set-layout binding maps. -/
def descriptor_pool_sizes (max_descriptor_count : Nat)
    (tys : List VkDescriptorType) : List (VkDescriptorType × Nat) :=
  tys.foldl (add_pool_size max_descriptor_count) []

/-- The pool parameters passed to `create_descriptor_pool`. -/
structure DescriptorPoolInfo where
  pool_sizes : List (VkDescriptorType × Nat)
  max_sets : Nat
  deriving DecidableEq, Repr

/-- `Shader::create_descriptor_sets` up to the device calls: the pool is
sized from the type values of every set's binding map and capped at
`max_sets(2)`. -/
def create_descriptor_sets (max_descriptor_count : Nat)
    (set_layout_info : List (List (Nat × VkDescriptorType))) :
    DescriptorPoolInfo :=
  { pool_sizes := descriptor_pool_sizes max_descriptor_count
      ((set_layout_info.map (fun m => m.map Prod.snd)).flatten),
    max_sets := 2 }

/-! ## Global bindless descriptor set (src/render/global_descriptors.rs) -/

/-- Iterator `position`: index of the first element satisfying the
predicate (`Iterator::position`). -/
def position {α : Type} (p : α → Bool) : List α → Option Nat
  | [] => none
  | x :: xs => if p x then some 0 else (position p xs).map (· + 1)

/-- `GlobalDescriptorSet::get_texture_index`:
`self.textures.iter().position(|(k, _)| k == key)` — the resident-texture
`BTreeMap` is embedded as a key-sorted association list (keys are the
texture handles'  ids, values the GPU image handles). -/
def GlobalDescriptorSet.get_texture_index (textures : List (Nat × Nat))
    (key : Nat) : Option Nat :=
  position (fun kv => kv.1 == key) textures

/-- `BTreeMap::insert` on the key-sorted association-list embedding: the
map step of `register_texture` (the upload itself is a device side
effect).  An existing key's value is replaced. -/
def btreeInsert (k v : Nat) : List (Nat × Nat) → List (Nat × Nat)
  | [] => [(k, v)]
  | (k', v') :: rest =>
      if k < k' then (k, v) :: (k', v') :: rest
      else if k = k' then (k, v) :: rest
      else (k', v') :: btreeInsert k v rest

/-! ## Miscellaneous small helpers and concrete witness inputs -/

/-- `Result`/`Except` success test (`is_ok`). -/
def isOkE {α : Type} : Except String α → Bool
  | .ok _ => true
  | .error _ => false

/-- A host-visible buffer for the witnesses: 4 bytes large, mapped at
address 1000. -/
def bufDemo : Buffer :=
  { buffer := 1, allocation := some { mapped_ptr := some 1000, offset := 0 },
    size := 4, device_addr := 77, has_been_written_to := false, offset := 0 }

/-- An image with a created view for the destroy witness. -/
def imgDemo : Image :=
  { image := 2, allocation := some { mapped_ptr := none, offset := 0 },
    view := some 9, format := 0, extent := (16, 16, 1), offset := 0 }

/-- A reflected shader touching set indices 0 and 2 only (two plain
uniform buffers), leaving set index 1 unreferenced. -/
def setsGapDemo : StageDescriptorSetLayouts :=
  [(0, [(0, { ty := ReflDescriptorType.UNIFORM_BUFFER,
              binding_count := BindingCount.One, name := "a" })]),
   (2, [(0, { ty := ReflDescriptorType.UNIFORM_BUFFER,
              binding_count := BindingCount.One, name := "b" })])]

/-- The layouts synthesized for `setsGapDemo` with
`max_descriptor_count = 1024`. -/
def rGapDemo : LayoutsResult :=
  LayoutsResult.mk
    [SetLayoutResult.mk false
      [DescriptorSetLayoutBinding.mk 0 1 VkDescriptorType.UNIFORM_BUFFER []]
      [DescriptorBindingFlags.PARTIALLY_BOUND],
     emptySetLayout,
     SetLayoutResult.mk false
      [DescriptorSetLayoutBinding.mk 0 1 VkDescriptorType.UNIFORM_BUFFER []]
      [DescriptorBindingFlags.PARTIALLY_BOUND]]
    [[(0, VkDescriptorType.UNIFORM_BUFFER)], [],
     [(0, VkDescriptorType.UNIFORM_BUFFER)]]

/-- A reflected shader with a single bindless array binding
(`u_`-prefixed combined image sampler of unbounded cardinality) at set 0,
binding 0. -/
def setsBindlessDemo : StageDescriptorSetLayouts :=
  [(0, [(0, { ty := ReflDescriptorType.COMBINED_IMAGE_SAMPLER,
              binding_count := BindingCount.Unbounded,
              name := "u_textures" })])]

/-- The layouts synthesized for `setsBindlessDemo` with
`max_descriptor_count = 1024`. -/
def rBindlessDemo : LayoutsResult :=
  LayoutsResult.mk
    [SetLayoutResult.mk false
      [DescriptorSetLayoutBinding.mk 0 1024
        VkDescriptorType.COMBINED_IMAGE_SAMPLER []]
      [DescriptorBindingFlags.PARTIALLY_BOUND]]
    [[(0, VkDescriptorType.COMBINED_IMAGE_SAMPLER)]]

/-- A sampler binding whose name parses under the convention
(linear filter, linear mipmap, clamp-to-edge). -/
def samplerBindingDemo : DescriptorInfo :=
  { ty := ReflDescriptorType.SAMPLER, binding_count := BindingCount.One,
    name := "sampler_llc" }

/-- A sampler binding whose name does not parse (unknown filter token
`x`). -/
def badSamplerBindingDemo : DescriptorInfo :=
  { ty := ReflDescriptorType.SAMPLER, binding_count := BindingCount.One,
    name := "sampler_xnr" }

/-- A reflected shader with two plain uniform-buffer bindings in set 0. -/
def setsTwoUBDemo : StageDescriptorSetLayouts :=
  [(0, [(0, DescriptorInfo.mk ReflDescriptorType.UNIFORM_BUFFER
              BindingCount.One "a"),
        (1, DescriptorInfo.mk ReflDescriptorType.UNIFORM_BUFFER
              BindingCount.One "b")])]

/-- The layouts synthesized for `setsTwoUBDemo` with
`max_descriptor_count = 1024`. -/
def rTwoUBDemo : LayoutsResult :=
  LayoutsResult.mk
    [SetLayoutResult.mk false
      [DescriptorSetLayoutBinding.mk 0 1 VkDescriptorType.UNIFORM_BUFFER [],
       DescriptorSetLayoutBinding.mk 1 1 VkDescriptorType.UNIFORM_BUFFER []]
      [DescriptorBindingFlags.PARTIALLY_BOUND,
       DescriptorBindingFlags.PARTIALLY_BOUND]]
    [[(0, VkDescriptorType.UNIFORM_BUFFER),
      (1, VkDescriptorType.UNIFORM_BUFFER)]]

/-- Modelled from the spec (for comparison with `create_descriptor_sets`):
"a descriptor pool sized by summing required descriptor counts across all
sets" — the per-type pool size as the sum of the descriptor counts of all
bindings of that type across all set layouts. -/
def spec_pool_size (layouts : List SetLayoutResult)
    (ty : VkDescriptorType) : Nat :=
  ((layouts.map (fun sl =>
    (sl.bindings.filter (fun bd => bd.descriptor_type == ty)).map
      (fun bd => bd.descriptor_count))).flatten).sum

/-- The trace of a 3-item draw list on a two-thread pool with items 0 and 2
scheduled on thread 0 and item 1 on thread 1. -/
def trDemo : List RunEvent :=
  [RunEvent.acquireNextImage, RunEvent.beginPrimary,
   RunEvent.beginSecondary 0, RunEvent.beginSecondary 1,
   RunEvent.recordDraw 0 0, RunEvent.recordDraw 1 1, RunEvent.recordDraw 0 2,
   RunEvent.endSecondary 0, RunEvent.endSecondary 1,
   RunEvent.executeCommands [0, 1],
   RunEvent.endPrimary, RunEvent.submitPrimary, RunEvent.queuePresent]

end RenderCore

deriving instance DecidableEq for Except

namespace RenderCore

/-! # Theorems

Helper lemmas come first, then one theorem per claim (with its witness or
counterexample). -/

/-! ## C8 — double destroy is dynamically prevented -/

/-- C8: for every `Buffer` and `Image` whose allocation is present, the
first `destroy` takes the allocation out of the structure (for images the
view, when present, is destroyed first, then the allocation is freed, then
the raw handle is destroyed), and a second `destroy` on the result panics
before freeing any allocation or destroying any handle again (its action
list is empty). -/
theorem destroy_double_free_prevented
    (b : Buffer) (hb : b.allocation.isSome = true)
    (img : Image) (hi : img.allocation.isSome = true) :
    (Buffer.destroy b =
        ([DestroyAction.freeAlloc, DestroyAction.destroyBuffer b.buffer],
          some { b with allocation := none }) ∧
      Buffer.destroy { b with allocation := none } = ([], none)) ∧
    (Image.destroy img =
        ((match img.view with
          | some v => [DestroyAction.destroyImageView v]
          | none => []) ++
            [DestroyAction.freeAlloc, DestroyAction.destroyImage img.image],
          some { img with view := none, allocation := none }) ∧
      Image.destroy { img with view := none, allocation := none } = ([], none)) := by
  obtain ⟨a, ha⟩ := Option.isSome_iff_exists.mp hb
  obtain ⟨a2, ha2⟩ := Option.isSome_iff_exists.mp hi
  refine ⟨⟨?_, ?_⟩, ⟨?_, ?_⟩⟩
  · simp [Buffer.destroy, ha]
  · simp [Buffer.destroy]
  · cases hv : img.view <;> simp [Image.destroy, ha2, hv]
  · simp [Image.destroy]

/-- C8 witness: concrete buffer and image, destroyed twice. -/
theorem destroy_double_free_prevented_witness :
    (Buffer.destroy bufDemo =
        ([DestroyAction.freeAlloc, DestroyAction.destroyBuffer 1],
          some { bufDemo with allocation := none }) ∧
      Buffer.destroy { bufDemo with allocation := none } = ([], none)) ∧
    (Image.destroy imgDemo =
        ([DestroyAction.destroyImageView 9, DestroyAction.freeAlloc,
          DestroyAction.destroyImage 2],
          some { imgDemo with view := none, allocation := none }) ∧
      Image.destroy { imgDemo with view := none, allocation := none } =
        ([], none)) := by
  have h := destroy_double_free_prevented bufDemo (by decide) imgDemo (by decide)
  exact h

/-! ## C9 — copy_from_slice performs no bounds check -/

/-- C9: `Buffer::copy_from_slice` never compares against the buffer's
recorded byte size: whenever the allocation is present and host-mapped the
write happens (at `mapped_ptr + offset`, for exactly the slice's bytes)
and `has_been_written_to` is set, for every offset and slice — including
when `offset + slice.length` exceeds `b.size`, since no conjunct below
mentions `b.size`.  The only failure cases are a taken allocation or an
allocation with no mapped pointer. -/
theorem copy_from_slice_unchecked (b : Buffer) (slice : List Nat) (offset : Nat) :
    (∀ a p, b.allocation = some a → a.mapped_ptr = some p →
      Buffer.copy_from_slice b slice offset =
        .ok ({ b with has_been_written_to := true },
             { dst_ptr := p + offset, bytes := slice })) ∧
    (isOkE (Buffer.copy_from_slice b slice offset) = false ↔
      b.allocation = none ∨ ∃ a, b.allocation = some a ∧ a.mapped_ptr = none) := by
  constructor
  · intro a p ha hp
    simp [Buffer.copy_from_slice, ha, hp]
  · cases ha : b.allocation with
    | none => simp [Buffer.copy_from_slice, ha, isOkE]
    | some a =>
      cases hp : a.mapped_ptr with
      | none => simp [Buffer.copy_from_slice, ha, hp, isOkE]
      | some p => simp [Buffer.copy_from_slice, ha, hp, isOkE]

/-- C9 witness: an out-of-bounds write (offset 100 with 3 bytes into a
4-byte buffer) still succeeds and marks the buffer written. -/
theorem copy_from_slice_unchecked_witness :
    Buffer.copy_from_slice bufDemo [7, 8, 9] 100 =
      .ok ({ bufDemo with has_been_written_to := true },
           { dst_ptr := 1100, bytes := [7, 8, 9] }) ∧
    100 + 3 > bufDemo.size := by
  have h := (copy_from_slice_unchecked bufDemo [7, 8, 9] 100).1
    { mapped_ptr := some 1000, offset := 0 } 1000 rfl rfl
  exact ⟨h, by decide⟩

/-! ## C10 — empty draw list skips the whole frame -/

/-- C10: with an empty draw list `PresentNode::run` returns `Ok(())`
before the frame state machine starts: the trace is empty, so no swapchain
image is acquired, no command buffer is begun or submitted, and no present
is queued. -/
theorem empty_draw_list_skips_frame (pool : List Nat) (σ : Nat → Nat) :
    PresentNode.run 0 pool σ = .ok [] ∧
    ∀ tr, PresentNode.run 0 pool σ = .ok tr →
      RunEvent.acquireNextImage ∉ tr ∧ RunEvent.beginPrimary ∉ tr ∧
      RunEvent.submitPrimary ∉ tr ∧ RunEvent.queuePresent ∉ tr := by
  refine ⟨rfl, ?_⟩
  intro tr htr
  have : tr = [] := by
    have h0 : PresentNode.run 0 pool σ = .ok [] := rfl
    rw [h0] at htr
    exact (Except.ok.injEq _ _).mp htr.symm
  subst this
  simp

/-- C10 witness: a concrete empty-draw-list run on a two-thread pool. -/
theorem empty_draw_list_skips_frame_witness :
    PresentNode.run 0 [0, 1] (fun i => i) = .ok [] ∧
    RunEvent.acquireNextImage ∉ ([] : List RunEvent) := by
  have h := empty_draw_list_skips_frame [0, 1] (fun i => i)
  exact ⟨h.1, (h.2 [] h.1).1⟩

/-! ## C2 — the draw list is not chunked by 50 -/

set_option maxRecDepth 4000

/-- C2 counterexample: `PresentNode::run` spawns one task per draw item
(there is no chunk constant, 50 or otherwise, in the code) and each task
records on whichever worker thread rayon happens to run it.  The execution
in which all 237 tasks run on worker 0 of an 8-thread pool is valid, and
its `cmd_execute_commands` call lists exactly one secondary command
buffer, not `ceil(237/50) = 5`. -/
theorem present_chunking_counterexample :
    executedOf (PresentNode.run 237 (List.range 8) (fun _ => 0)) = [[0]] ∧
    (executedOf (PresentNode.run 237 (List.range 8) (fun _ => 0))).map
        List.length = [1] ∧
    (1 : Nat) ≠ 5 := by decide

/-- C2 amended: each draw item is recorded as its own task on the
secondary buffer of the worker thread that runs it; the primary's single
`cmd_execute_commands` call lists, without duplicates, exactly the
distinct secondary buffers of threads that recorded at least one item, and
every listed buffer (indeed every pool buffer) was begun and ended in this
frame before the execute call. -/
theorem present_execute_commands_exactly_touched
    (n : Nat) (pool : List Nat) (σ : Nat → Nat) (tr : List RunEvent)
    (hok : PresentNode.run n pool σ = .ok tr) (hn : n ≠ 0)
    (hnd : pool.Nodup) :
    ∀ ts, RunEvent.executeCommands ts ∈ tr →
      ts.Nodup ∧
      (∀ t, t ∈ ts ↔ t ∈ pool ∧ ∃ i, i < n ∧ σ i = t) ∧
      (∀ t ∈ ts, RunEvent.endSecondary t ∈ tr) ∧
      (∀ t ∈ pool,
        RunEvent.beginSecondary t ∈ tr ∧ RunEvent.endSecondary t ∈ tr) := by
  rw [PresentNode.run, if_neg hn] at hok
  by_cases hall : (List.range n).all (fun i => pool.contains (σ i)) = true
  · rw [if_pos hall] at hok
    have htr := ((Except.ok.injEq _ _).mp hok).symm
    subst htr
    intro ts hts
    have hts' : ts = pool.filter (fun t => (touchedThreads n σ).contains t) := by
      simp only [List.mem_append, List.mem_map, List.mem_cons,
        List.not_mem_nil, or_false] at hts
      rcases hts with ((((h | h) | ⟨a, -, h⟩) | ⟨a, -, h⟩) | ⟨a, -, h⟩) |
          (h | h | h | h)
      all_goals simp at h ⊢
      all_goals exact h
    subst hts'
    have hmemF : ∀ t, t ∈ pool.filter
        (fun t => (touchedThreads n σ).contains t) → t ∈ pool :=
      fun t ht => (List.mem_filter.mp ht).1
    have hbegin : ∀ t ∈ pool, RunEvent.beginSecondary t ∈
        ([RunEvent.acquireNextImage, RunEvent.beginPrimary]
          ++ pool.map RunEvent.beginSecondary
          ++ (List.range n).map (fun i => RunEvent.recordDraw (σ i) i)
          ++ pool.map RunEvent.endSecondary
          ++ [RunEvent.executeCommands
                (pool.filter (fun t => (touchedThreads n σ).contains t)),
              RunEvent.endPrimary, RunEvent.submitPrimary,
              RunEvent.queuePresent]) := by
      intro t hp
      simp only [List.mem_append]
      exact Or.inl (Or.inl (Or.inl (Or.inr (List.mem_map_of_mem _ hp))))
    have hend : ∀ t ∈ pool, RunEvent.endSecondary t ∈
        ([RunEvent.acquireNextImage, RunEvent.beginPrimary]
          ++ pool.map RunEvent.beginSecondary
          ++ (List.range n).map (fun i => RunEvent.recordDraw (σ i) i)
          ++ pool.map RunEvent.endSecondary
          ++ [RunEvent.executeCommands
                (pool.filter (fun t => (touchedThreads n σ).contains t)),
              RunEvent.endPrimary, RunEvent.submitPrimary,
              RunEvent.queuePresent]) := by
      intro t hp
      simp only [List.mem_append]
      exact Or.inl (Or.inr (List.mem_map_of_mem _ hp))
    refine ⟨hnd.filter _, ?_, ?_, ?_⟩
    · intro t
      rw [List.mem_filter]
      have hc : ((touchedThreads n σ).contains t = true) ↔
          (∃ i, i < n ∧ σ i = t) := by
        simp only [List.contains, List.elem_iff, touchedThreads, List.mem_map,
          List.mem_range]
      rw [hc]
    · intro t ht
      exact hend t (hmemF t ht)
    · intro t hp
      exact ⟨hbegin t hp, hend t hp⟩
  · rw [if_neg hall] at hok
    cases hok

/-- C2 amended witness: 3 items on the two-thread pool `[0, 1]` with the
schedule `i % 2`. -/
theorem present_execute_commands_exactly_touched_witness :
    ([0, 1] : List Nat).Nodup ∧
    (1 ∈ ([0, 1] : List Nat)) ∧
    RunEvent.endSecondary 0 ∈ trDemo ∧
    RunEvent.beginSecondary 1 ∈ trDemo := by
  have h := present_execute_commands_exactly_touched 3 [0, 1] (fun i => i % 2)
    trDemo (by decide) (by decide) (by decide) [0, 1] (by decide)
  exact ⟨h.1, ((h.2.1 1).mpr ⟨by decide, 1, by decide, by decide⟩),
    h.2.2.1 0 (by decide), (h.2.2.2 1 (by decide)).1⟩

/-! ## C7 — texture indices are positions in ascending-key order -/

/-- On a list whose keys are strictly ascending, `position` of a resident
key is the number of keys below it. -/
theorem position_eq_countP_of_mem (l : List (Nat × Nat)) (k : Nat)
    (hs : (l.map Prod.fst).Pairwise (· < ·)) (hk : k ∈ l.map Prod.fst) :
    position (fun kv => kv.1 == k) l =
      some ((l.map Prod.fst).countP (fun x => decide (x < k))) := by
  induction l with
  | nil => cases hk
  | cons hd tl ih =>
    simp only [List.map_cons, List.pairwise_cons] at hs
    simp only [List.map_cons, List.mem_cons] at hk
    by_cases hhd : hd.1 = k
    · subst hhd
      have hzero : (tl.map Prod.fst).countP (fun x => decide (x < hd.1)) = 0 := by
        rw [List.countP_eq_zero]
        intro a ha
        simp only [decide_eq_true_eq]
        exact Nat.not_lt.mpr (Nat.le_of_lt (hs.1 a ha))
      simp [position, List.countP_cons, hzero]
    · have hk' : k ∈ tl.map Prod.fst := by
        rcases hk with h | h
        · exact absurd h.symm hhd
        · exact h
      have hlt : hd.1 < k := hs.1 k hk'
      have := ih hs.2 hk'
      simp only [position, beq_iff_eq, if_neg hhd, this, Option.map_some]
      simp [List.countP_cons, hlt, Nat.add_comm]

/-- `position` of an absent key is `none`. -/
theorem position_eq_none_of_not_mem (l : List (Nat × Nat)) (k : Nat)
    (hk : k ∉ l.map Prod.fst) :
    position (fun kv => kv.1 == k) l = none := by
  induction l with
  | nil => rfl
  | cons hd tl ih =>
    simp only [List.map_cons, List.mem_cons, not_or] at hk
    have hrec := ih hk.2
    have hne : hd.1 ≠ k := fun e => hk.1 e.symm
    simp [position, beq_iff_eq, hne, hrec]

/-- The count of keys below `k1` is strictly below the count of keys below
`k2` whenever `k1` itself is present and `k1 < k2`. -/
theorem countP_lt_of_mem_lt (keys : List Nat) (k1 k2 : Nat)
    (hk1 : k1 ∈ keys) (hlt : k1 < k2) :
    keys.countP (fun x => decide (x < k1)) <
      keys.countP (fun x => decide (x < k2)) := by
  induction keys with
  | nil => cases hk1
  | cons hd tl ih =>
    have hmono : tl.countP (fun x => decide (x < k1)) ≤
        tl.countP (fun x => decide (x < k2)) := by
      refine List.countP_mono_left ?_
      intro x _ hx
      simp only [decide_eq_true_eq] at hx ⊢
      exact Nat.lt_trans hx hlt
    rcases List.mem_cons.mp hk1 with h | h
    · rw [← h]
      simp only [List.countP_cons]
      have e1 : (if (decide (k1 < k1)) = true then 1 else 0) = 0 := by simp
      have e2 : (if (decide (k1 < k2)) = true then 1 else 0) = 1 := by simp [hlt]
      rw [e1, e2]
      omega
    · have hrec := ih h
      simp only [List.countP_cons]
      by_cases hx1 : hd < k1
      · have hx2 : hd < k2 := Nat.lt_trans hx1 hlt
        have e1 : (if (decide (hd < k1)) = true then 1 else 0) = 1 := by simp [hx1]
        have e2 : (if (decide (hd < k2)) = true then 1 else 0) = 1 := by simp [hx2]
        rw [e1, e2]
        omega
      · have e1 : (if (decide (hd < k1)) = true then 1 else 0) = 0 := by simp [hx1]
        by_cases hx2 : hd < k2
        · have e2 : (if (decide (hd < k2)) = true then 1 else 0) = 1 := by simp [hx2]
          rw [e1, e2]
          omega
        · have e2 : (if (decide (hd < k2)) = true then 1 else 0) = 0 := by simp [hx2]
          rw [e1, e2]
          omega

/-- Keys after a `btreeInsert` are the inserted key plus the old keys. -/
theorem mem_keys_btreeInsert (k v j : Nat) (l : List (Nat × Nat)) :
    j ∈ (btreeInsert k v l).map Prod.fst ↔ j = k ∨ j ∈ l.map Prod.fst := by
  induction l with
  | nil => simp [btreeInsert]
  | cons hd tl ih =>
    obtain ⟨ka, va⟩ := hd
    by_cases h1 : k < ka
    · simp [btreeInsert, h1]
    · by_cases h2 : k = ka
      · simp only [btreeInsert, if_neg h1, if_pos h2]
        simp only [List.map_cons, List.mem_cons]
        constructor
        · rintro (h | h)
          · exact Or.inl h
          · exact Or.inr (Or.inr h)
        · rintro (h | h | h)
          · exact Or.inl h
          · exact Or.inl (h.trans h2.symm)
          · exact Or.inr h
      · simp only [btreeInsert, if_neg h1, if_neg h2, List.map_cons,
          List.mem_cons, ih]
        tauto

/-- `btreeInsert` preserves strictly ascending keys. -/
theorem sorted_btreeInsert (k v : Nat) (l : List (Nat × Nat))
    (hs : (l.map Prod.fst).Pairwise (· < ·)) :
    ((btreeInsert k v l).map Prod.fst).Pairwise (· < ·) := by
  induction l with
  | nil => simp [btreeInsert]
  | cons hd tl ih =>
    obtain ⟨ka, va⟩ := hd
    simp only [List.map_cons, List.pairwise_cons] at hs
    by_cases h1 : k < ka
    · simp only [btreeInsert, if_pos h1, List.map_cons, List.pairwise_cons]
      refine ⟨?_, ?_⟩
      · intro a ha
        rcases List.mem_cons.mp ha with h | h
        · rw [h]; exact h1
        · exact Nat.lt_trans h1 (hs.1 a h)
      · exact hs
    · by_cases h2 : k = ka
      · simp only [btreeInsert, if_neg h1, if_pos h2, List.map_cons,
          List.pairwise_cons]
        refine ⟨?_, hs.2⟩
        intro a ha
        rw [h2]
        exact hs.1 a ha
      · have h3 : ka < k := by omega
        simp only [btreeInsert, if_neg h1, if_neg h2, List.map_cons,
          List.pairwise_cons]
        refine ⟨?_, ih hs.2⟩
        intro a ha
        rcases (mem_keys_btreeInsert k v a tl).mp ha with h | h
        · rw [h]; exact h3
        · exact hs.1 a h

/-- On a sorted resident map, a lower resident key is assigned a strictly
lower index. -/
theorem get_texture_index_lt (l : List (Nat × Nat)) (k1 k2 : Nat)
    (hs : (l.map Prod.fst).Pairwise (· < ·)) (hlt : k1 < k2)
    (hk1 : k1 ∈ l.map Prod.fst) (hk2 : k2 ∈ l.map Prod.fst)
    (i1 i2 : Nat)
    (h1 : GlobalDescriptorSet.get_texture_index l k1 = some i1)
    (h2 : GlobalDescriptorSet.get_texture_index l k2 = some i2) :
    i1 < i2 := by
  rw [GlobalDescriptorSet.get_texture_index,
    position_eq_countP_of_mem l k1 hs hk1] at h1
  rw [GlobalDescriptorSet.get_texture_index,
    position_eq_countP_of_mem l k2 hs hk2] at h2
  have e1 := (Option.some.injEq _ _).mp h1
  have e2 := (Option.some.injEq _ _).mp h2
  subst e1; subst e2
  exact countP_lt_of_mem_lt _ k1 k2 hk1 hlt

/-- C7: on every state of the global descriptor set whose resident-texture
map has strictly ascending keys (the `BTreeMap` invariant),
`get_texture_index` returns the key's position in ascending-key iteration
order (the number of resident keys below it) when the key is resident and
`none` when it is absent; consequently, after registering two distinct
keys, the two queries return distinct indices ordered like the keys. -/
theorem get_texture_index_spec (l : List (Nat × Nat)) (k k2 : Nat)
    (hs : (l.map Prod.fst).Pairwise (· < ·)) :
    (k ∈ l.map Prod.fst →
      GlobalDescriptorSet.get_texture_index l k =
        some ((l.map Prod.fst).countP (fun x => decide (x < k)))) ∧
    (k ∉ l.map Prod.fst → GlobalDescriptorSet.get_texture_index l k = none) ∧
    (∀ v v2, k < k2 → ∀ i1 i2,
      GlobalDescriptorSet.get_texture_index
        (btreeInsert k2 v2 (btreeInsert k v l)) k = some i1 →
      GlobalDescriptorSet.get_texture_index
        (btreeInsert k2 v2 (btreeInsert k v l)) k2 = some i2 →
      i1 < i2 ∧ i1 ≠ i2) := by
  refine ⟨fun hk => position_eq_countP_of_mem l k hs hk,
    fun hk => position_eq_none_of_not_mem l k hk, ?_⟩
  intro v v2 hlt i1 i2 h1 h2
  have hs2 : ((btreeInsert k2 v2 (btreeInsert k v l)).map Prod.fst).Pairwise
      (· < ·) := sorted_btreeInsert _ _ _ (sorted_btreeInsert _ _ _ hs)
  have hk1 : k ∈ (btreeInsert k2 v2 (btreeInsert k v l)).map Prod.fst := by
    rw [mem_keys_btreeInsert, mem_keys_btreeInsert]
    exact Or.inr (Or.inl rfl)
  have hk2 : k2 ∈ (btreeInsert k2 v2 (btreeInsert k v l)).map Prod.fst := by
    rw [mem_keys_btreeInsert]
    exact Or.inl rfl
  have := get_texture_index_lt _ k k2 hs2 hlt hk1 hk2 i1 i2 h1 h2
  exact ⟨this, Nat.ne_of_lt this⟩

/-! ## exceptMapM, lookup and fold lemmas for the synthesizer -/

/-- A successful `exceptMapM` preserves length. -/
theorem exceptMapM_ok_length {α β : Type} (f : α → Except String β)
    (l : List α) (ys : List β) (h : exceptMapM f l = .ok ys) :
    ys.length = l.length := by
  induction l generalizing ys with
  | nil =>
    simp only [exceptMapM] at h
    cases h
    rfl
  | cons x xs ih =>
    simp only [exceptMapM] at h
    cases hf : f x with
    | error e => rw [hf] at h; cases h
    | ok y =>
      rw [hf] at h
      cases hr : exceptMapM f xs with
      | error e => rw [hr] at h; cases h
      | ok ys' =>
        rw [hr] at h
        cases h
        simp [ih ys' hr]

/-- A successful `exceptMapM` maps position `i` of the input to position
`i` of the output. -/
theorem exceptMapM_ok_getElem {α β : Type} (f : α → Except String β)
    (l : List α) (ys : List β) (h : exceptMapM f l = .ok ys)
    (i : Nat) (x : α) (hx : l[i]? = some x) :
    ∃ y, ys[i]? = some y ∧ f x = .ok y := by
  induction l generalizing ys i with
  | nil => simp at hx
  | cons a as ih =>
    simp only [exceptMapM] at h
    cases hf : f a with
    | error e => rw [hf] at h; cases h
    | ok y =>
      rw [hf] at h
      cases hr : exceptMapM f as with
      | error e => rw [hr] at h; cases h
      | ok ys' =>
        rw [hr] at h
        cases h
        cases i with
        | zero =>
          simp only [List.getElem?_cons_zero] at hx ⊢
          cases hx
          exact ⟨y, rfl, hf⟩
        | succ n =>
          simp only [List.getElem?_cons_succ] at hx ⊢
          exact ih ys' hr n hx

/-- Every input element of a successful `exceptMapM` produced an output
element. -/
theorem exceptMapM_ok_mem {α β : Type} (f : α → Except String β)
    (l : List α) (ys : List β) (h : exceptMapM f l = .ok ys)
    (x : α) (hx : x ∈ l) : ∃ y, y ∈ ys ∧ f x = .ok y := by
  induction l generalizing ys with
  | nil => cases hx
  | cons a as ih =>
    simp only [exceptMapM] at h
    cases hf : f a with
    | error e => rw [hf] at h; cases h
    | ok y =>
      rw [hf] at h
      cases hr : exceptMapM f as with
      | error e => rw [hr] at h; cases h
      | ok ys' =>
        rw [hr] at h
        cases h
        rcases List.mem_cons.mp hx with hx | hx
        · exact ⟨y, List.mem_cons_self _ _, hx ▸ hf⟩
        · obtain ⟨y', hy', hfy⟩ := ih ys' hr hx
          exact ⟨y', List.mem_cons_of_mem _ hy', hfy⟩

/-- Every output element of a successful `exceptMapM` came from an input
element. -/
theorem exceptMapM_ok_mem_rev {α β : Type} (f : α → Except String β)
    (l : List α) (ys : List β) (h : exceptMapM f l = .ok ys)
    (y : β) (hy : y ∈ ys) : ∃ x, x ∈ l ∧ f x = .ok y := by
  induction l generalizing ys with
  | nil =>
    simp only [exceptMapM] at h
    cases h
    cases hy
  | cons a as ih =>
    simp only [exceptMapM] at h
    cases hf : f a with
    | error e => rw [hf] at h; cases h
    | ok y0 =>
      rw [hf] at h
      cases hr : exceptMapM f as with
      | error e => rw [hr] at h; cases h
      | ok ys' =>
        rw [hr] at h
        cases h
        rcases List.mem_cons.mp hy with hy | hy
        · exact ⟨a, List.mem_cons_self _ _, hy ▸ hf⟩
        · obtain ⟨x, hx, hfx⟩ := ih ys' hr hy
          exact ⟨x, List.mem_cons_of_mem _ hx, hfx⟩

/-- Members bound `foldr Nat.max 0`. -/
theorem le_foldr_max (l : List Nat) (a : Nat) (ha : a ∈ l) :
    a ≤ l.foldr Nat.max 0 := by
  induction l with
  | nil => cases ha
  | cons hd tl ih =>
    simp only [List.foldr_cons]
    rcases List.mem_cons.mp ha with h | h
    · rw [h]; exact Nat.le_max_left _ _
    · exact Nat.le_trans (ih h) (Nat.le_max_right _ _)

/-- A referenced set index is below `set_count`. -/
theorem lt_set_count_of_mem (sets : StageDescriptorSetLayouts) (si : Nat)
    (s : List (Nat × DescriptorInfo)) (h : (si, s) ∈ sets) :
    si < set_count sets := by
  have hm : si + 1 ∈ sets.map (fun p => p.1 + 1) :=
    List.mem_map_of_mem (fun p => p.1 + 1) h
  have := le_foldr_max _ _ hm
  unfold set_count
  omega

/-- For a nonempty reflection, `set_count` is the highest referenced set
index plus one. -/
theorem set_count_eq_highest_succ (sets : StageDescriptorSetLayouts)
    (hne : sets ≠ []) :
    set_count sets = (sets.map Prod.fst).foldr Nat.max 0 + 1 := by
  induction sets with
  | nil => cases hne rfl
  | cons hd tl ih =>
    cases tl with
    | nil => simp [set_count]
    | cons hd2 tl2 =>
      have h2 := ih (by simp)
      simp only [set_count, List.map_cons, List.foldr_cons] at h2 ⊢
      rw [h2]
      exact Nat.succ_max_succ _ _

/-- On strictly ascending keys, association-list membership determines
`lookup`. -/
theorem lookup_eq_some_of_mem_pairwise (sets : StageDescriptorSetLayouts)
    (si : Nat) (s : List (Nat × DescriptorInfo))
    (hs : (sets.map Prod.fst).Pairwise (· < ·)) (hmem : (si, s) ∈ sets) :
    sets.lookup si = some s := by
  induction sets with
  | nil => cases hmem
  | cons hd tl ih =>
    obtain ⟨k0, s0⟩ := hd
    simp only [List.map_cons, List.pairwise_cons] at hs
    rcases List.mem_cons.mp hmem with h | h
    · injection h with h1 h2
      subst h1
      subst h2
      rw [List.lookup_cons]
      simp
    · have hsi : si ∈ tl.map Prod.fst := by
        have := List.mem_map_of_mem Prod.fst h
        simpa using this
      have hlt : k0 < si := hs.1 si hsi
      have hne : (si == k0) = false := by
        simp only [beq_eq_false_iff_ne, ne_eq]
        omega
      rw [List.lookup_cons, hne]
      exact ih hs.2 h

/-! ## C3 — no gaps in the synthesized set-layout sequence -/

/-- C3: a successful `create_descriptor_set_layouts` returns exactly
`set_count` layouts — zero when no set is referenced, and highest
referenced set index plus one otherwise — and every index below
`set_count` with no reflected bindings receives the empty placeholder
layout (and an empty binding→type map). -/
theorem create_layouts_no_gaps (sets : StageDescriptorSetLayouts)
    (mdc : Nat) (cache : List SamplerDesc) (r : LayoutsResult)
    (hok : create_descriptor_set_layouts sets mdc cache = .ok r) :
    r.set_layouts.length = set_count sets ∧
    r.set_layout_info.length = set_count sets ∧
    (sets = [] → set_count sets = 0) ∧
    (sets ≠ [] → set_count sets = (sets.map Prod.fst).foldr Nat.max 0 + 1) ∧
    (∀ i, i < set_count sets → sets.lookup i = none →
      r.set_layouts[i]? = some emptySetLayout ∧
      r.set_layout_info[i]? = some []) := by
  unfold create_descriptor_set_layouts at hok
  cases hm : exceptMapM (process_set_index mdc cache sets)
      (List.range (set_count sets)) with
  | error e => rw [hm] at hok; cases hok
  | ok pairs =>
    rw [hm] at hok
    cases hok
    have hlen := exceptMapM_ok_length _ _ _ hm
    rw [List.length_range] at hlen
    refine ⟨by simp [hlen], by simp [hlen], ?_, set_count_eq_highest_succ sets, ?_⟩
    · intro he
      subst he
      rfl
    · intro i hi hnone
      have hg : (List.range (set_count sets))[i]? = some i :=
        List.getElem?_range hi
      obtain ⟨y, hy, hf⟩ := exceptMapM_ok_getElem _ _ _ hm i i hg
      have hempty : process_set_index mdc cache sets i =
          .ok (emptySetLayout, ([] : List (Nat × VkDescriptorType))) := by
        unfold process_set_index
        rw [hnone]
      rw [hempty] at hf
      have hy' : y = (emptySetLayout, ([] : List (Nat × VkDescriptorType))) :=
        ((Except.ok.injEq _ _).mp hf).symm
      subst hy'
      constructor
      · simp [List.getElem?_map, hy]
      · simp [List.getElem?_map, hy]

/-- C3 witness: a shader referencing sets `{0, 2}` yields exactly 3
layouts with the layout at index 1 empty. -/
theorem create_layouts_no_gaps_witness :
    rGapDemo.set_layouts.length = 3 ∧
    rGapDemo.set_layouts[1]? = some emptySetLayout ∧
    rGapDemo.set_layout_info[1]? = some [] := by
  have h := create_layouts_no_gaps setsGapDemo 1024 create_samplers rGapDemo
    (by decide)
  have h5 := h.2.2.2.2 1 (by decide) (by decide)
  exact ⟨h.1.trans (by decide), h5.1, h5.2⟩

/-! ## Sampler-name and bindless-name lemmas -/

/-- A name that parses under the sampler convention starts with the
characters of `"sampler_"`. -/
theorem parse_some_shape (name : String) (desc : SamplerDesc)
    (hp : parse_sampler_name name = some desc) :
    ∃ t, name.data =
      's' :: 'a' :: 'm' :: 'p' :: 'l' :: 'e' :: 'r' :: '_' :: t := by
  unfold parse_sampler_name at hp
  split at hp
  · rename_i spec heq
    exact ⟨spec, heq⟩
  · cases hp

/-- A name starting with `'s'` does not carry the `"u_"` bindless
marker. -/
theorem rsStartsWith_u_eq_false (name : String) (t : List Char)
    (hd : name.data = 's' :: t) : rsStartsWith name "u_" = false := by
  have hu : ("u_".data) = ['u', '_'] := rfl
  simp only [rsStartsWith, hu, hd]
  rfl

/-- A `u_`-prefixed binding that processes successfully is synthesized
with element count `max_descriptor_count` at its own binding index. -/
theorem process_binding_u_count (mdc : Nat) (cache : List SamplerDesc)
    (bi : Nat) (b : DescriptorInfo) (out : DescriptorSetLayoutBinding)
    (hu : rsStartsWith b.name "u_" = true)
    (hok : process_binding mdc cache bi b = .ok out) :
    out.binding = bi ∧ out.descriptor_count = mdc := by
  obtain ⟨ty, bc, name⟩ := b
  simp only at hu hok
  have hdc : binding_descriptor_count mdc ⟨ty, bc, name⟩ = .ok mdc := by
    unfold binding_descriptor_count
    simp only
    rw [if_pos hu]
  have hns : ∀ desc, parse_sampler_name name = some desc → False := by
    intro desc hps
    obtain ⟨t0, ht0⟩ := parse_some_shape name desc hps
    rw [rsStartsWith_u_eq_false name _ ht0] at hu
    cases hu
  unfold process_binding at hok
  rw [hdc] at hok
  cases ty
  case SAMPLER =>
    cases hps : parse_sampler_name name with
    | none => rw [hps] at hok; simp at hok
    | some desc => exact (hns desc hps).elim
  case STORAGE_BUFFER =>
    by_cases hdyn : rsEndsWith name "_dyn" = true
    all_goals simp [map_descriptor_type, hdyn] at hok
    all_goals exact ⟨by simp [← hok], by simp [← hok]⟩
  all_goals try (simp [map_descriptor_type] at hok; exact ⟨by simp [← hok], by simp [← hok]⟩)
  all_goals simp at hok

/-- A successful `create_descriptor_set_layouts` gives every referenced
set a layout at its own index whose create flags are empty, whose flag
array is `PARTIALLY_BOUND` replicated, and whose bindings are the
processed reflected bindings. -/
theorem create_ok_layout (sets : StageDescriptorSetLayouts) (mdc : Nat)
    (cache : List SamplerDesc) (r : LayoutsResult) (si : Nat)
    (set : List (Nat × DescriptorInfo))
    (hok : create_descriptor_set_layouts sets mdc cache = .ok r)
    (hkeys : (sets.map Prod.fst).Pairwise (· < ·))
    (hset : (si, set) ∈ sets) :
    ∃ sl, r.set_layouts[si]? = some sl ∧
      sl.update_after_bind_pool = false ∧
      sl.binding_flags =
        List.replicate set.length DescriptorBindingFlags.PARTIALLY_BOUND ∧
      sl.bindings.length = set.length ∧
      ∀ bi b, (bi, b) ∈ set →
        ∃ out, out ∈ sl.bindings ∧
          process_binding mdc cache bi b = .ok out := by
  have hsi : si < set_count sets := lt_set_count_of_mem sets si set hset
  have hlk : sets.lookup si = some set :=
    lookup_eq_some_of_mem_pairwise _ _ _ hkeys hset
  unfold create_descriptor_set_layouts at hok
  cases hm : exceptMapM (process_set_index mdc cache sets)
      (List.range (set_count sets)) with
  | error e => rw [hm] at hok; cases hok
  | ok pairs =>
    rw [hm] at hok
    cases hok
    obtain ⟨y, hy, hf⟩ := exceptMapM_ok_getElem _ _ _ hm si si
      (List.getElem?_range hsi)
    unfold process_set_index at hf
    rw [hlk] at hf
    have hf2 : (match process_set mdc cache set with
      | .error e => (.error e : Except String
          (SetLayoutResult × List (Nat × VkDescriptorType)))
      | .ok sl =>
          .ok (sl, sl.bindings.map
            (fun (bd : DescriptorSetLayoutBinding) =>
              (bd.binding, bd.descriptor_type)))) = .ok y := hf
    cases hps : process_set mdc cache set with
    | error e => rw [hps] at hf2; cases hf2
    | ok sl =>
      rw [hps] at hf2
      have hy2 : y =
          (sl, sl.bindings.map fun bd => (bd.binding, bd.descriptor_type)) :=
        ((Except.ok.injEq _ _).mp hf2).symm
      subst hy2
      unfold process_set at hps
      cases hbm : exceptMapM
          (fun p => process_binding mdc cache p.1 p.2) set with
      | error e => rw [hbm] at hps; cases hps
      | ok bs =>
        rw [hbm] at hps
        have hsl : sl = SetLayoutResult.mk false bs
            (List.replicate set.length
              DescriptorBindingFlags.PARTIALLY_BOUND) :=
          ((Except.ok.injEq _ _).mp hps).symm
        subst hsl
        refine ⟨SetLayoutResult.mk false bs
          (List.replicate set.length DescriptorBindingFlags.PARTIALLY_BOUND),
          ?_, rfl, rfl, ?_, ?_⟩
        · simp [List.getElem?_map, hy]
        · simpa using exceptMapM_ok_length _ _ _ hbm
        · intro bi b hb
          obtain ⟨out, ho, hpo⟩ := exceptMapM_ok_mem _ _ _ hbm (bi, b) hb
          exact ⟨out, ho, hpo⟩

/-! ## C1 — bindless bindings: element count right, update-after-bind absent -/

/-- C1 counterexample: for the bindless binding `u_textures` the
synthesized element count is the configured maximum (1024), but the
binding's flags are exactly `PARTIALLY_BOUND`: the update-after-bind bit
is `false` (the code that would set it is commented out), so the claim's
flag conjunct fails. -/
theorem bindless_update_after_bind_counterexample :
    create_descriptor_set_layouts setsBindlessDemo 1024 create_samplers =
      .ok rBindlessDemo ∧
    rBindlessDemo.set_layouts.map
        (fun sl => sl.bindings.map (fun bd => bd.descriptor_count)) =
      [[1024]] ∧
    rBindlessDemo.set_layouts.map
        (fun sl => sl.binding_flags.map (fun f => f.update_after_bind)) =
      [[false]] ∧
    rBindlessDemo.set_layouts.map
        (fun sl => sl.binding_flags.map (fun f => f.partially_bound)) =
      [[true]] := by decide

/-- C1 amended: a reflected binding whose name carries the `u_` bindless
marker is synthesized with element count equal to the device context's
configured maximum, and its binding flags (like those of every binding in
the layout) are exactly "partially bound" — the update-after-bind flag is
NOT set and the owning layout is not marked for update-after-bind pools,
that code being commented out in the source. -/
theorem bindless_binding_amended (sets : StageDescriptorSetLayouts)
    (mdc : Nat) (cache : List SamplerDesc) (r : LayoutsResult)
    (si : Nat) (set : List (Nat × DescriptorInfo)) (bi : Nat)
    (b : DescriptorInfo)
    (hok : create_descriptor_set_layouts sets mdc cache = .ok r)
    (hkeys : (sets.map Prod.fst).Pairwise (· < ·))
    (hset : (si, set) ∈ sets) (hb : (bi, b) ∈ set)
    (hu : rsStartsWith b.name "u_" = true) :
    ∃ sl, r.set_layouts[si]? = some sl ∧
      sl.update_after_bind_pool = false ∧
      (∀ f ∈ sl.binding_flags,
        f.partially_bound = true ∧ f.update_after_bind = false) ∧
      sl.binding_flags.length = sl.bindings.length ∧
      ∃ out, out ∈ sl.bindings ∧ out.binding = bi ∧
        out.descriptor_count = mdc := by
  obtain ⟨sl, h1, h2, h3, h4, h5⟩ :=
    create_ok_layout sets mdc cache r si set hok hkeys hset
  obtain ⟨out, ho, hpo⟩ := h5 bi b hb
  obtain ⟨hb1, hb2⟩ := process_binding_u_count mdc cache bi b out hu hpo
  refine ⟨sl, h1, h2, ?_, ?_, out, ho, hb1, hb2⟩
  · intro f hf
    rw [h3] at hf
    have hfe := List.eq_of_mem_replicate hf
    rw [hfe]
    exact ⟨rfl, rfl⟩
  · rw [h3, h4]
    simp

/-- C1 amended witness: the `u_textures` binding of `setsBindlessDemo`. -/
theorem bindless_binding_amended_witness :
    ∃ sl, rBindlessDemo.set_layouts[0]? = some sl ∧
      sl.update_after_bind_pool = false ∧
      (∀ f ∈ sl.binding_flags,
        f.partially_bound = true ∧ f.update_after_bind = false) ∧
      sl.binding_flags.length = sl.bindings.length ∧
      ∃ out, out ∈ sl.bindings ∧ out.binding = 0 ∧
        out.descriptor_count = 1024 := by
  exact bindless_binding_amended setsBindlessDemo 1024 create_samplers
    rBindlessDemo 0
    [(0, { ty := ReflDescriptorType.COMBINED_IMAGE_SAMPLER,
           binding_count := BindingCount.Unbounded, name := "u_textures" })]
    0
    { ty := ReflDescriptorType.COMBINED_IMAGE_SAMPLER,
      binding_count := BindingCount.Unbounded, name := "u_textures" }
    (by decide) (by simp [setsBindlessDemo]) (by decide) (by decide)
    (by decide)

/-- C7 witness: registering keys 2 and 5 into the empty map yields indices
0 and 1. -/
theorem get_texture_index_spec_witness :
    GlobalDescriptorSet.get_texture_index
      (btreeInsert 5 50 (btreeInsert 2 20 [])) 2 = some 0 ∧
    GlobalDescriptorSet.get_texture_index
      (btreeInsert 5 50 (btreeInsert 2 20 [])) 5 = some 1 ∧
    (0 : Nat) < 1 ∧ (0 : Nat) ≠ 1 := by
  have h := (get_texture_index_spec [] 2 5 (by simp)).2.2 20 50 (by decide)
    0 1 (by decide) (by decide)
  exact ⟨by decide, by decide, h.1, h.2⟩

/-! ## C4 — descriptor pool sizing -/

/-- Effect of one `add_pool_size` step on a later lookup. -/
theorem lookup_add_pool_size (mdc : Nat) (acc : List (VkDescriptorType × Nat))
    (t ty : VkDescriptorType) :
    List.lookup ty (add_pool_size mdc acc t) =
      if ty = t then
        (match List.lookup ty acc with
         | some c => some (c + 1)
         | none => some mdc)
      else List.lookup ty acc := by
  induction acc with
  | nil =>
    by_cases h : ty = t
    · simp [add_pool_size, List.lookup_cons, h]
    · have hb : (ty == t) = false := by simp [h]
      simp [add_pool_size, List.lookup_cons, h, hb]
  | cons hd rest ih =>
    obtain ⟨ty0, c0⟩ := hd
    by_cases h1 : ty0 = t
    · by_cases h2 : ty = ty0
      · have h3 : ty = t := h2.trans h1
        simp [add_pool_size, h1, List.lookup_cons, h2, h3]
      · have hb : (ty == ty0) = false := by simp [h2]
        by_cases h3 : ty = t
        · exact absurd (h3.trans h1.symm) h2
        · have hbt : (ty == t) = false := by simp [h3]
          simp [add_pool_size, h1, List.lookup_cons, hb, h3, hbt]
    · by_cases h2 : ty = ty0
      · by_cases h3 : ty = t
        · exact absurd (h2.symm.trans h3) h1
        · simp [add_pool_size, h1, List.lookup_cons, h2, h3]
      · have hb : (ty == ty0) = false := by simp [h2]
        simp [add_pool_size, h1, List.lookup_cons, hb, ih]

/-- The pool-size fold: a type occurring `n` times across the binding
maps ends with `max_descriptor_count + (n - 1)` descriptors (the first
occurrence contributes `max_descriptor_count`, each further one adds 1). -/
theorem lookup_foldl_pool (mdc : Nat) (tys : List VkDescriptorType) :
    ∀ (acc : List (VkDescriptorType × Nat)) (ty : VkDescriptorType),
    List.lookup ty (tys.foldl (add_pool_size mdc) acc) =
      match List.lookup ty acc with
      | some c => some (c + tys.count ty)
      | none => if ty ∈ tys then some (mdc + (tys.count ty - 1)) else none := by
  induction tys with
  | nil =>
    intro acc ty
    simp only [List.foldl_nil, List.count_nil]
    cases List.lookup ty acc <;> simp
  | cons t ts ih =>
    intro acc ty
    simp only [List.foldl_cons]
    rw [ih (add_pool_size mdc acc t) ty, lookup_add_pool_size]
    by_cases h : ty = t
    · have hc : (t == ty) = true := by simp [h]
      cases hl : List.lookup ty acc with
      | some c =>
        simp only [if_pos h, hl]
        rw [List.count_cons]
        simp [hc]
        omega
      | none =>
        simp only [if_pos h, hl]
        rw [List.count_cons]
        have hm : ty ∈ t :: ts := by rw [h]; exact List.mem_cons_self _ _
        simp [hc, hm]
    · have hc : (t == ty) = false := by
        rw [beq_eq_false_iff_ne]
        intro e
        exact h e.symm
      cases hl : List.lookup ty acc with
      | some c =>
        simp only [if_neg h, hl]
        rw [List.count_cons]
        simp [hc]
      | none =>
        simp only [if_neg h, hl]
        rw [List.count_cons]
        have hm : (ty ∈ t :: ts) ↔ (ty ∈ ts) := by
          constructor
          · intro hx
            rcases List.mem_cons.mp hx with hx | hx
            · exact absurd hx h
            · exact hx
          · exact List.mem_cons_of_mem _
        simp [hc, hm]

/-- C4 counterexample: for a shader with two uniform-buffer bindings (each
of required count 1), the claim's sizing — the sum of required descriptor
counts, here 2 — differs from what the code allocates: the first
occurrence of the type contributes `max_descriptor_count = 1024` and the
second adds 1, giving 1025. -/
theorem pool_sizing_counterexample :
    create_descriptor_set_layouts setsTwoUBDemo 1024 create_samplers =
      .ok rTwoUBDemo ∧
    spec_pool_size rTwoUBDemo.set_layouts VkDescriptorType.UNIFORM_BUFFER = 2 ∧
    (create_descriptor_sets 1024 rTwoUBDemo.set_layout_info).pool_sizes =
      [(VkDescriptorType.UNIFORM_BUFFER, 1025)] ∧
    (1025 : Nat) ≠ 2 := by decide

/-- C4 amended: `create_descriptor_sets` sizes the pool per descriptor
type as `max_descriptor_count` for the type's first binding plus one for
each additional binding of that type across all set layouts (not the sum
of the bindings' required descriptor counts), and caps the pool at the
fixed `max_sets = 2`. -/
theorem pool_sizing_amended (mdc : Nat)
    (info : List (List (Nat × VkDescriptorType))) (ty : VkDescriptorType)
    (h : ty ∈ (info.map (fun m => m.map Prod.snd)).flatten) :
    List.lookup ty (create_descriptor_sets mdc info).pool_sizes =
      some (mdc + (((info.map (fun m => m.map Prod.snd)).flatten).count ty - 1)) ∧
    (create_descriptor_sets mdc info).max_sets = 2 := by
  refine ⟨?_, rfl⟩
  show List.lookup ty (((info.map (fun m => m.map Prod.snd)).flatten).foldl
    (add_pool_size mdc) []) = _
  rw [lookup_foldl_pool]
  simp [h]

/-- C4 amended witness: the two-uniform-buffer shader gets a pool entry of
`1024 + 1 = 1025` for the uniform-buffer type, capped at 2 sets. -/
theorem pool_sizing_amended_witness :
    List.lookup VkDescriptorType.UNIFORM_BUFFER
      (create_descriptor_sets 1024 rTwoUBDemo.set_layout_info).pool_sizes =
      some 1025 ∧
    (create_descriptor_sets 1024 rTwoUBDemo.set_layout_info).max_sets = 2 := by
  have h := pool_sizing_amended 1024 rTwoUBDemo.set_layout_info
    VkDescriptorType.UNIFORM_BUFFER (by decide)
  exact ⟨h.1.trans (by decide), h.2⟩

/-! ## C5 — sampler-name resolution against the sampler cache -/

/-- Membership in the device's sampler cache is determined by the address
mode: every filter/mipmap combination is present exactly for the repeat
and clamp-to-edge address modes. -/
theorem mem_create_samplers (d : SamplerDesc) :
    d ∈ create_samplers ↔
      (d.address_modes = SamplerAddressMode.REPEAT ∨
       d.address_modes = SamplerAddressMode.CLAMP_TO_EDGE) := by
  obtain ⟨tf, mm, am⟩ := d
  cases tf <;> cases mm <;> cases am <;> decide

/-- For a sampler binding with a parseable name the descriptor-count
computation (which runs first) succeeds: the name cannot carry the
bindless marker, and the cardinality cases are all fine. -/
theorem bdc_ok_of_parse (mdc : Nat) (b : DescriptorInfo) (desc : SamplerDesc)
    (hp : parse_sampler_name b.name = some desc)
    (hsz : ∀ n, b.binding_count = BindingCount.StaticSized n → n < 2 ^ 32) :
    ∃ c, binding_descriptor_count mdc b = .ok c := by
  obtain ⟨t0, ht0⟩ := parse_some_shape b.name desc hp
  have hnu : rsStartsWith b.name "u_" = false :=
    rsStartsWith_u_eq_false b.name _ ht0
  unfold binding_descriptor_count
  rw [hnu]
  simp only [Bool.false_eq_true, if_false]
  cases hbc : b.binding_count with
  | One => exact ⟨1, rfl⟩
  | StaticSized n =>
    refine ⟨n, ?_⟩
    show (if n < 2 ^ 32 then Except.ok n
      else (Except.error "out of range integral type conversion attempted" :
        Except String Nat)) = Except.ok n
    rw [if_pos (hsz n hbc)]
  | Unbounded => exact ⟨mdc, rfl⟩

/-- The per-binding loop on a sampler binding with a parseable name
reduces to the cache lookup. -/
theorem process_binding_sampler_eq (mdc : Nat) (cache : List SamplerDesc)
    (bi : Nat) (b : DescriptorInfo) (desc : SamplerDesc) (c : Nat)
    (hty : b.ty = ReflDescriptorType.SAMPLER)
    (hp : parse_sampler_name b.name = some desc)
    (hc : binding_descriptor_count mdc b = .ok c) :
    process_binding mdc cache bi b =
      match get_sampler cache desc with
      | .error e => .error e
      | .ok s => .ok (DescriptorSetLayoutBinding.mk bi 1
          VkDescriptorType.SAMPLER [s]) := by
  unfold process_binding
  rw [hc, hty, hp]

/-- C5 counterexample: the name `sampler_nnmr` parses under the
convention (nearest/nearest/mirrored-repeat), but resolution fails with
the cache-miss panic `"Sampler not found"`, because the sampler cache
holds only repeat and clamp-to-edge entries — so the claim that every
parseable name resolves successfully is false. -/
theorem sampler_resolution_counterexample :
    parse_sampler_name "sampler_nnmr" =
      some (SamplerDesc.mk Filter.NEAREST SamplerMipmapMode.NEAREST
        SamplerAddressMode.MIRRORED_REPEAT) ∧
    process_binding 1024 create_samplers 0
      (DescriptorInfo.mk ReflDescriptorType.SAMPLER BindingCount.One
        "sampler_nnmr") = .error "Sampler not found" ∧
    (SamplerDesc.mk Filter.NEAREST SamplerMipmapMode.NEAREST
      SamplerAddressMode.MIRRORED_REPEAT ∉ create_samplers) := by decide

/-- C5 amended: a sampler binding whose name parses resolves to the
immutable sampler of the parsed description from the device's cache when
the address-mode token is `r` (repeat) or `c` (clamp-to-edge); for the
tokens `mr` and `cb` — which parse — resolution panics with a cache miss,
since the cache built once at device-context construction holds one entry
per combination of 2 filters × 2 mipmap modes × 2 address modes (repeat,
clamp-to-edge), 8 entries in total. -/
theorem sampler_cache_resolution_amended (mdc : Nat) (bi : Nat)
    (b : DescriptorInfo) (desc : SamplerDesc)
    (hty : b.ty = ReflDescriptorType.SAMPLER)
    (hp : parse_sampler_name b.name = some desc)
    (hsz : ∀ n, b.binding_count = BindingCount.StaticSized n → n < 2 ^ 32) :
    ((desc.address_modes = SamplerAddressMode.REPEAT ∨
      desc.address_modes = SamplerAddressMode.CLAMP_TO_EDGE) →
      process_binding mdc create_samplers bi b =
        .ok (DescriptorSetLayoutBinding.mk bi 1 VkDescriptorType.SAMPLER
          [desc]) ∧ desc ∈ create_samplers) ∧
    ((desc.address_modes = SamplerAddressMode.MIRRORED_REPEAT ∨
      desc.address_modes = SamplerAddressMode.CLAMP_TO_BORDER) →
      process_binding mdc create_samplers bi b =
        .error "Sampler not found") ∧
    create_samplers.length = 8 ∧ create_samplers.Nodup := by
  obtain ⟨c, hc⟩ := bdc_ok_of_parse mdc b desc hp hsz
  have heq := process_binding_sampler_eq mdc create_samplers bi b desc c
    hty hp hc
  refine ⟨?_, ?_, by decide, by decide⟩
  · intro haddr
    have hmem : desc ∈ create_samplers := (mem_create_samplers desc).mpr haddr
    rw [heq]
    unfold get_sampler
    rw [if_pos (by simp [List.contains, List.elem_iff, hmem])]
    exact ⟨rfl, hmem⟩
  · intro haddr
    have hmem : desc ∉ create_samplers := by
      rw [mem_create_samplers]
      rcases haddr with h | h <;> rw [h] <;> decide
    rw [heq]
    unfold get_sampler
    rw [if_neg (by simp [List.contains, List.elem_iff, hmem])]

/-- C5 amended witness: `sampler_llc` resolves to the linear/linear/
clamp-to-edge sampler of the 8-entry cache. -/
theorem sampler_cache_resolution_amended_witness :
    process_binding 1024 create_samplers 0 samplerBindingDemo =
      .ok (DescriptorSetLayoutBinding.mk 0 1 VkDescriptorType.SAMPLER
        [SamplerDesc.mk Filter.LINEAR SamplerMipmapMode.LINEAR
          SamplerAddressMode.CLAMP_TO_EDGE]) ∧
    SamplerDesc.mk Filter.LINEAR SamplerMipmapMode.LINEAR
      SamplerAddressMode.CLAMP_TO_EDGE ∈ create_samplers ∧
    create_samplers.length = 8 := by
  have h := sampler_cache_resolution_amended 1024 0 samplerBindingDemo
    (SamplerDesc.mk Filter.LINEAR SamplerMipmapMode.LINEAR
      SamplerAddressMode.CLAMP_TO_EDGE)
    rfl (by decide) (by intro n hn; simp [samplerBindingDemo] at hn)
  obtain ⟨h1, h2⟩ := h.1 (Or.inr rfl)
  exact ⟨h1, h2, h.2.2.1⟩

/-! ## C6 — unparseable sampler names abort synthesis -/

/-- C6: a sampler binding whose name does not parse under the naming
convention (missing prefix or unrecognized filter/mipmap/address token —
exactly the cases where `parse_sampler_name` is `none`) makes the
per-binding loop panic, and hence the whole descriptor-set-layout
synthesis fails: no default sampler is substituted. -/
theorem sampler_parse_failure_fails (mdc : Nat) (cache : List SamplerDesc)
    (bi : Nat) (b : DescriptorInfo)
    (hty : b.ty = ReflDescriptorType.SAMPLER)
    (hp : parse_sampler_name b.name = none) :
    isOkE (process_binding mdc cache bi b) = false ∧
    (∀ (sets : StageDescriptorSetLayouts) (si : Nat)
      (set : List (Nat × DescriptorInfo)) (r : LayoutsResult),
      (sets.map Prod.fst).Pairwise (· < ·) →
      (si, set) ∈ sets → (bi, b) ∈ set →
      create_descriptor_set_layouts sets mdc cache ≠ .ok r) := by
  have hfail : isOkE (process_binding mdc cache bi b) = false := by
    unfold process_binding
    cases hdc : binding_descriptor_count mdc b with
    | error e => rfl
    | ok c =>
      rw [hty, hp]
      rfl
  refine ⟨hfail, ?_⟩
  intro sets si set r hkeys hset hb hok
  obtain ⟨sl, _, _, _, h5⟩ :=
    create_ok_layout sets mdc cache r si set hok hkeys hset
  obtain ⟨out, _, hpo⟩ := h5.2 bi b hb
  rw [hpo] at hfail
  simp [isOkE] at hfail

/-- C6 witness: the sampler binding named `sampler_xnr` (unknown filter
token `x`) fails both at the binding level and for the whole synthesis. -/
theorem sampler_parse_failure_fails_witness :
    isOkE (process_binding 1024 create_samplers 0 badSamplerBindingDemo) =
      false ∧
    create_descriptor_set_layouts [(0, [(0, badSamplerBindingDemo)])] 1024
      create_samplers ≠ Except.ok rBindlessDemo := by
  have h := sampler_parse_failure_fails 1024 create_samplers 0
    badSamplerBindingDemo rfl (by decide)
  exact ⟨h.1, h.2 [(0, [(0, badSamplerBindingDemo)])] 0
    [(0, badSamplerBindingDemo)] rBindlessDemo (by simp) (by decide)
    (by decide)⟩

end RenderCore
